import Mathlib

/-!
Verification development for the image-host repository (src/server.js).

JavaScript strings are embedded as lists of UTF-16 code units (List Nat);
byte buffers as List Nat; wall-clock times in milliseconds as rationals.
Each definition below is a direct transcription of the corresponding piece
of src/server.js; the line numbers in the comments refer to that file.
-/

namespace ImageHost

/-- Code units of a Lean string literal, as the embedding of a JS string. -/
def str (s : String) : List Nat := s.data.map Char.toNat

/-- JS String.prototype.toUpperCase on one ASCII code unit. -/
def upperChar (c : Nat) : Nat := if 97 ≤ c ∧ c ≤ 122 then c - 32 else c

/-- JS String.prototype.toUpperCase (ASCII range, the only range tickers use). -/
def jsToUpper (s : List Nat) : List Nat := s.map upperChar

/-- Code unit matches the regex class [A-Z0-9]. -/
def isUpperAlnum (c : Nat) : Bool :=
  (decide (65 ≤ c) && decide (c ≤ 90)) || (decide (48 ≤ c) && decide (c ≤ 57))

/-- Code unit matches [A-Z0-9] case-insensitively, i.e. [A-Za-z0-9]. -/
def isAlnumCI (c : Nat) : Bool :=
  (decide (65 ≤ c) && decide (c ≤ 90)) || (decide (97 ≤ c) && decide (c ≤ 122)) ||
    (decide (48 ≤ c) && decide (c ≤ 57))

/-- The literal tail of every storage key (10 code units). -/
def chartTail : List Nat := str "_chart.png"

/-- server.js:133,156 - the storage key derived from an (already uppercased)
ticker, the template string interpolation with _chart.png appended. -/
def deriveKey (t : List Nat) : List Nat := t ++ chartTail

/-- server.js:428,558 - the test of the case-insensitive anchored regex
matching one or more alphanumerics followed by the tail _chart.png. The i
flag covers the whole pattern, the literal tail included, so the last 10
code units are compared up to ASCII case (both sides uppercased). -/
def matchChartKey (s : List Nat) : Bool :=
  let p := s.take (s.length - 10)
  decide (jsToUpper (s.drop (s.length - 10)) = jsToUpper chartTail) &&
    !p.isEmpty && p.all isAlnumCI

/-- server.js:437,563 - JS split on the underscore character (code 95),
first chunk: all code units strictly before the first underscore. -/
def splitHeadUnderscore (s : List Nat) : List Nat := s.takeWhile (fun c => !decide (c = 95))

/-- server.js:428-437 - recover the ticker from an uploaded filename: reject
unless the key matches the chart regex, else take the part before the first
underscore and uppercase it. -/
def keyToTicker (k : List Nat) : Option (List Nat) :=
  if matchChartKey k then some (jsToUpper (splitHeadUnderscore k)) else none

/-- Spec 3: a valid Ticker is a nonempty uppercase alphanumeric string of at
most 10 code units (the relational column is VARCHAR of width 10). -/
def isValidTicker (t : List Nat) : Bool :=
  !t.isEmpty && decide (t.length ≤ 10) && t.all isUpperAlnum

/-- Lookup in an association list keyed by a string, first match (models both
a directory of files and a SQL select returning rows in insertion order). -/
def lookupA {α : Type} (st : List (List Nat × α)) (k : List Nat) : Option α :=
  (st.find? (fun e => decide (e.1 = k))).map (fun e => e.2)

/-- Overwrite-or-append update of an association list (models writing a file
at a fixed path: create when absent, replace in place when present). -/
def putA {α : Type} (st : List (List Nat × α)) (k : List Nat) (v : α) :
    List (List Nat × α) :=
  if st.any (fun e => decide (e.1 = k)) then
    st.map (fun e => if e.1 = k then (k, v) else e)
  else
    st ++ [(k, v)]

/-- Remove every entry at a key (models fs.unlinkSync). -/
def eraseA {α : Type} (st : List (List Nat × α)) (k : List Nat) :
    List (List Nat × α) :=
  st.filter (fun e => !decide (e.1 = k))

/-- server.js:571,610 - fileAge, hours elapsed since the file modification
time: milliseconds divided by 1000, then 60, then 60. -/
def fileAgeHours (now mtime : ℚ) : ℚ := (now - mtime) / 1000 / 60 / 60

/-- server.js:573,612 - the freshness test applied to a file that exists:
the age in hours is strictly below 24. -/
def fileIsRecent (now mtime : ℚ) : Bool := decide (fileAgeHours now mtime < 24)

/-- server.js:569-576,608-615 - freshness of a possibly absent timestamp: an
absent file (no recorded modification time) is never fresh. -/
def freshFile (mtime : Option ℚ) (now : ℚ) : Bool :=
  match mtime with
  | none => false
  | some m => fileIsRecent now m

/-- 24 hours expressed in milliseconds. -/
def ttl24ms : ℚ := 86400000

/-- A row of the images table (server.js:57-66). -/
structure ImageRow where
  symbol : List Nat
  image_data : List Nat
  filename : List Nat
  createdAt : ℚ
  updatedAt : ℚ
  deriving DecidableEq

/-- Result object of storeImage: inserted or updated (server.js:217,224). -/
inductive PutResult
  | inserted
  | updated
  deriving DecidableEq

/-- server.js:197-229 - storeImage: select rows by symbol; when any exist,
update their bytes, filename and updated_at; otherwise insert a fresh row
whose created_at and updated_at both default to the current timestamp.
The symbol is stored exactly as supplied, with no normalization. -/
def storeImage (db : List ImageRow) (now : ℚ) (symbol imageBytes filename : List Nat) :
    List ImageRow × PutResult :=
  if db.any (fun r => decide (r.symbol = symbol)) then
    (db.map (fun r =>
       if r.symbol = symbol then
         { r with image_data := imageBytes, filename := filename, updatedAt := now }
       else r),
     .updated)
  else
    (db ++ [⟨symbol, imageBytes, filename, now, now⟩], .inserted)

/-- server.js:265-304 - the chart lookup of the GET route: the query is made
with the uppercased request symbol and the first returned row is served. -/
def getChart (db : List ImageRow) (symbol : List Nat) : Option ImageRow :=
  (db.filter (fun r => decide (r.symbol = jsToUpper symbol))).head?

/-- Possible behaviors of the upstream provider for one request: the body
streams completely, the stream dies after writing some bytes to the staging
file, or the request fails before any byte reaches disk. -/
inductive FetchOutcome
  | fetchOk (bytes : List Nat)
  | fetchFailWrite (written : List Nat)
  | fetchFailNet
  deriving DecidableEq

/-- Whether an upstream outcome is a completed download. -/
def fetchSucceeds : FetchOutcome → Bool
  | .fetchOk _ => true
  | _ => false

/-- Transient value returned by a successful download: the staging path (the
key inside the temp directory) and the derived filename (server.js:154-157). -/
structure FetchResult where
  path : List Nat
  filename : List Nat
  deriving DecidableEq

/-- The temp directory holding staged downloads, path to bytes. -/
abbrev Temp : Type := List (List Nat × List Nat)

/-- The public static directory: filename to bytes plus modification time. -/
structure FileRec where
  bytes : List Nat
  mtime : ℚ
  deriving DecidableEq

/-- The file backend state (public static directory). -/
abbrev FileStore : Type := List (List Nat × FileRec)

/-- server.js:124-162 - downloadFinvizChart: uppercase the symbol, stream the
response into the temp file named by the storage key, and return the staging
path and filename. On a mid-stream failure the partially written bytes stay
in the temp file because the catch block rethrows without any cleanup; on a
failure before streaming nothing was written. Failure is surfaced as none. -/
def downloadFinvizChart (temp : Temp) (symbol : List Nat) (out : FetchOutcome) :
    Temp × Option FetchResult :=
  let fname := deriveKey (jsToUpper symbol)
  match out with
  | .fetchOk b => (putA temp fname b, some ⟨fname, fname⟩)
  | .fetchFailWrite w => (putA temp fname w, none)
  | .fetchFailNet => (temp, none)

/-- Responses of the POST charts route. -/
inductive ChartsResponse
  | symbolRequired
  | dbNotInitialized
  | processed (r : PutResult)
  | downloadError
  deriving DecidableEq

/-- Result of one POST charts request: new table, new temp directory, how
many upstream downloads were attempted, and the HTTP-level response. -/
structure PostChartsResult where
  db : List ImageRow
  temp : Temp
  fetches : Nat
  response : ChartsResponse
  deriving DecidableEq

/-- server.js:232-262 - the POST charts handler: reject a missing or empty
(falsy) symbol with 400, reject when the table is not initialized with 503,
otherwise download unconditionally, store the bytes under the raw symbol
with the derived filename, and delete the staging file. No character-set or
length validation happens anywhere on this path. -/
def postCharts (db : List ImageRow) (dbInitialized : Bool) (temp : Temp) (now : ℚ)
    (body : Option (List Nat)) (out : FetchOutcome) : PostChartsResult :=
  match body with
  | none => ⟨db, temp, 0, .symbolRequired⟩
  | some s =>
    if s.isEmpty then ⟨db, temp, 0, .symbolRequired⟩
    else if !dbInitialized then ⟨db, temp, 0, .dbNotInitialized⟩
    else
      match downloadFinvizChart temp s out with
      | (temp1, some fr) =>
          let bytes := (lookupA temp1 fr.path).getD []
          let step := storeImage db now s bytes fr.filename
          ⟨step.1, eraseA temp1 fr.path, 1, .processed step.2⟩
      | (temp1, none) => ⟨db, temp1, 1, .downloadError⟩

/-- One entry of the results array of the batch route (server.js:360). -/
structure SuccessEntry where
  symbol : List Nat
  put : PutResult
  deriving DecidableEq

/-- One entry of the errors array of the batch route (server.js:363). -/
structure ErrorEntry where
  symbol : List Nat
  deriving DecidableEq

/-- Final state and response of the batch loop. -/
structure BatchResult where
  db : List ImageRow
  temp : Temp
  results : List SuccessEntry
  errors : List ErrorEntry
  deriving DecidableEq

/-- server.js:349-365 - the sequential loop of the batch route: for each
symbol in order, download then store then unlink; a per-item failure is
caught and pushed onto the errors array and the loop continues. Successes
accumulate in the results array, failures in the errors array. -/
def batchCharts (oracle : List Nat → FetchOutcome) (now : ℚ) :
    List (List Nat) → List ImageRow → Temp → BatchResult
  | [], db, temp => ⟨db, temp, [], []⟩
  | s :: rest, db, temp =>
      match downloadFinvizChart temp s (oracle s) with
      | (temp1, some fr) =>
          let bytes := (lookupA temp1 fr.path).getD []
          let step := storeImage db now s bytes fr.filename
          let r := batchCharts oracle now rest step.1 (eraseA temp1 fr.path)
          ⟨r.db, r.temp, ⟨s, step.2⟩ :: r.results, r.errors⟩
      | (temp1, none) =>
          let r := batchCharts oracle now rest db temp1
          ⟨r.db, r.temp, r.results, ⟨s⟩ :: r.errors⟩

/-- Responses of the static charts route. -/
inductive StaticResponse
  | urlText (filename : List Nat)
  | errorJson
  deriving DecidableEq

/-- Result of one GET static charts request. -/
structure StaticChartsResult where
  store : FileStore
  temp : Temp
  fetches : Nat
  commits : Nat
  response : StaticResponse
  deriving DecidableEq

/-- server.js:595-632 - the GET static charts handler (the fetch-on-miss
cache orchestrator): uppercase the symbol, derive the key, decide
needsDownload from existence and file age, download and commit (copy into
the static directory, refreshing the modification time, then unlink the
staging file) only when needed, and answer with the public URL. A download
failure answers with the error response, leaving the static directory as it
was. -/
def staticCharts (store : FileStore) (temp : Temp) (now : ℚ) (symbol : List Nat)
    (out : FetchOutcome) : StaticChartsResult :=
  let key := deriveKey (jsToUpper symbol)
  let needsDownload : Bool :=
    match lookupA store key with
    | some fi => !fileIsRecent now fi.mtime
    | none => true
  if needsDownload then
    match downloadFinvizChart temp symbol out with
    | (temp1, some fr) =>
        let bytes := (lookupA temp1 fr.path).getD []
        ⟨putA store key ⟨bytes, now⟩, eraseA temp1 fr.path, 1, 1, .urlText key⟩
    | (temp1, none) => ⟨store, temp1, 1, 0, .errorJson⟩
  else ⟨store, temp, 0, 0, .urlText key⟩

/-- Outcome of the upload route. -/
inductive UploadOutcome
  | accepted (ticker : List Nat)
  | validationFailure
  deriving DecidableEq

/-- The expected mime type of an upload (server.js:98). -/
def pngMime : List Nat := str "image/png"

/-- server.js:94-107,418-452 - the upload path: the multer fileFilter rejects
any mime type other than PNG before a byte is written; an accepted file is
staged directly into the static directory under its supplied filename; the
handler then validates the filename against the chart-key regex, unlinking
the staged file on mismatch, and otherwise keeps the committed file and
answers with the ticker extracted from the filename. -/
def acceptUpload (store : FileStore) (now : ℚ) (filename mime bytes : List Nat) :
    FileStore × UploadOutcome :=
  if mime = pngMime then
    let staged := putA store filename ⟨bytes, now⟩
    if matchChartKey filename then
      (staged, .accepted (jsToUpper (splitHeadUnderscore filename)))
    else
      (eraseA staged filename, .validationFailure)
  else (store, .validationFailure)

/-- The HTTP endpoints of server.js that carry core logic. -/
inductive Endpoint
  | postChartsEp
  | getChartEp
  | symbolsEp
  | batchChartsEp
  | dbTestEp
  | uploadEp
  | uploadBatchEp
  | staticFilenameEp
  | staticChartsEp
  deriving DecidableEq

/-- How a registered route behaves: backed by the relational store, backed by
the file system, or the 503 placeholder answering that database
functionality is not available. -/
inductive RouteBehavior
  | dbBacked
  | fileBacked
  | unavailable503
  deriving DecidableEq

/-- server.js:195-415,418-546,554-632 - route registration: the five
relational routes get their real handlers only when a pool exists and
placeholder handlers answering 503 otherwise; the upload and static routes
are registered unconditionally and never touch the pool. -/
def registeredBehavior (hasPool : Bool) : Endpoint → RouteBehavior := fun e =>
  match e with
  | .postChartsEp | .getChartEp | .symbolsEp | .batchChartsEp | .dbTestEp =>
      if hasPool then .dbBacked else .unavailable503
  | .uploadEp | .uploadBatchEp | .staticFilenameEp | .staticChartsEp => .fileBacked

/-- The endpoints served by the relational backend only (the if branch of the
registration in server.js:195). -/
def relationalOnly (e : Endpoint) : Bool :=
  match e with
  | .postChartsEp | .getChartEp | .symbolsEp | .batchChartsEp | .dbTestEp => true
  | _ => false

/-! Helper lemmas about the string model. -/

theorem upperChar_fixed {c : Nat} (h : isUpperAlnum c = true) : upperChar c = c := by
  simp only [isUpperAlnum, Bool.or_eq_true, Bool.and_eq_true, decide_eq_true_eq] at h
  unfold upperChar
  rw [if_neg]
  omega

theorem upperChar_idem (c : Nat) : upperChar (upperChar c) = upperChar c := by
  unfold upperChar
  split
  · next h => rw [if_neg (by omega)]
  · next h => rfl

theorem jsToUpper_idem (s : List Nat) : jsToUpper (jsToUpper s) = jsToUpper s := by
  simp [jsToUpper, List.map_map, Function.comp, upperChar_idem]

theorem jsToUpper_fixed {t : List Nat} (h : t.all isUpperAlnum = true) :
    jsToUpper t = t := by
  induction t with
  | nil => rfl
  | cons c cs ih =>
      simp only [List.all_cons, Bool.and_eq_true] at h
      simp only [jsToUpper, List.map_cons]
      rw [upperChar_fixed h.1]
      have hcs := ih h.2
      simp only [jsToUpper] at hcs
      rw [hcs]

theorem alnumCI_of_upper {c : Nat} (h : isUpperAlnum c = true) : isAlnumCI c = true := by
  simp only [isUpperAlnum, Bool.or_eq_true, Bool.and_eq_true, decide_eq_true_eq] at h
  simp only [isAlnumCI, Bool.or_eq_true, Bool.and_eq_true, decide_eq_true_eq]
  omega

theorem chartTail_length : chartTail.length = 10 := rfl

theorem matchChartKey_derive {t : List Nat} (hne : t ≠ [])
    (hall : t.all isAlnumCI = true) : matchChartKey (t ++ chartTail) = true := by
  have hlen : (t ++ chartTail).length - 10 = t.length := by
    simp [List.length_append, chartTail_length]
  simp only [matchChartKey, hlen, List.take_left, List.drop_left]
  simp [hall, hne]

theorem splitHead_derive {t : List Nat} (hall : t.all isUpperAlnum = true) :
    splitHeadUnderscore (t ++ chartTail) = t := by
  induction t with
  | nil => rfl
  | cons c cs ih =>
      simp only [List.all_cons, Bool.and_eq_true] at hall
      have hc : c ≠ 95 := by
        have h1 := hall.1
        simp only [isUpperAlnum, Bool.or_eq_true, Bool.and_eq_true, decide_eq_true_eq] at h1
        omega
      have hrest := ih hall.2
      simp only [splitHeadUnderscore, List.cons_append, List.takeWhile_cons] at hrest ⊢
      simp [hc, hrest]

theorem matchChartKey_iff (s : List Nat) :
    matchChartKey s = true ↔
      ∃ p q : List Nat, p ≠ [] ∧ p.all isAlnumCI = true ∧
        jsToUpper q = jsToUpper chartTail ∧ s = p ++ q := by
  constructor
  · intro h
    simp only [matchChartKey, Bool.and_eq_true, Bool.not_eq_true', List.isEmpty_eq_false,
      decide_eq_true_eq] at h
    obtain ⟨⟨hdrop, hne⟩, hall⟩ := h
    exact ⟨s.take (s.length - 10), s.drop (s.length - 10), hne, hall, hdrop,
      (List.take_append_drop (s.length - 10) s).symm⟩
  · rintro ⟨p, q, hne, hall, hq, rfl⟩
    have hqlen : q.length = 10 := by
      have hl := congrArg List.length hq
      simpa [jsToUpper, chartTail_length] using hl
    have hlen : (p ++ q).length - 10 = p.length := by
      simp [List.length_append, hqlen]
    simp only [matchChartKey, hlen, List.take_left, List.drop_left]
    simp [hq, hall, hne]

/-! Helper lemmas about the association-list stores. -/

theorem find?_update_self {α : Type} (st : List (List Nat × α)) (k : List Nat) (v : α)
    (h : st.any (fun e => decide (e.1 = k)) = true) :
    (st.map (fun e => if e.1 = k then (k, v) else e)).find? (fun e => decide (e.1 = k)) =
      some (k, v) := by
  induction st with
  | nil => simp at h
  | cons e es ih =>
      by_cases he : e.1 = k
      · rw [List.map_cons, if_pos he, List.find?_cons_of_pos _ (by simp)]
      · rw [List.map_cons, if_neg he, List.find?_cons_of_neg _ (by simp [he])]
        apply ih
        simpa [he] using h

theorem find?_append_self {α : Type} (st : List (List Nat × α)) (k : List Nat) (v : α)
    (h : st.any (fun e => decide (e.1 = k)) = false) :
    (st ++ [(k, v)]).find? (fun e => decide (e.1 = k)) = some (k, v) := by
  induction st with
  | nil => simp
  | cons e es ih =>
      simp only [List.any_cons, Bool.or_eq_false_iff, decide_eq_false_iff_not] at h
      rw [List.cons_append, List.find?_cons_of_neg _ (by simp [h.1])]
      apply ih
      simp [h.2]

theorem lookupA_putA_self {α : Type} (st : List (List Nat × α)) (k : List Nat) (v : α) :
    lookupA (putA st k v) k = some v := by
  unfold lookupA putA
  by_cases h : st.any (fun e => decide (e.1 = k)) = true
  · rw [if_pos h, find?_update_self st k v h]
    rfl
  · rw [if_neg h, find?_append_self st k v (Bool.eq_false_iff.mpr h)]
    rfl

theorem lookupA_nil {α : Type} (k : List Nat) :
    lookupA ([] : List (List Nat × α)) k = none := rfl

theorem lookupA_eraseA_self {α : Type} (st : List (List Nat × α)) (k : List Nat) :
    lookupA (eraseA st k) k = none := by
  unfold lookupA eraseA
  induction st with
  | nil => rfl
  | cons e es ih =>
      by_cases he : e.1 = k
      · rw [List.filter_cons, if_neg (by simp [he])]
        exact ih
      · rw [List.filter_cons, if_pos (by simp [he]), List.find?_cons_of_neg _ (by simp [he])]
        exact ih

/-! Helper lemmas about the relational table model. -/

theorem map_update_of_absent {db : List ImageRow} {T : List Nat}
    (habs : db.all (fun r => !decide (r.symbol = T)) = true) (f : ImageRow → ImageRow) :
    db.map (fun r => if r.symbol = T then f r else r) = db := by
  induction db with
  | nil => rfl
  | cons r rs ih =>
      simp only [List.all_cons, Bool.and_eq_true, Bool.not_eq_true',
        decide_eq_false_iff_not] at habs
      rw [List.map_cons, if_neg habs.1, ih (by simp [List.all_eq_true] at habs ⊢; exact habs.2)]

theorem filter_of_absent {db : List ImageRow} {T : List Nat}
    (habs : db.all (fun r => !decide (r.symbol = T)) = true) :
    db.filter (fun r => decide (r.symbol = T)) = [] := by
  induction db with
  | nil => rfl
  | cons r rs ih =>
      simp only [List.all_cons, Bool.and_eq_true, Bool.not_eq_true',
        decide_eq_false_iff_not] at habs
      rw [List.filter_cons, if_neg (by simp [habs.1])]
      exact ih (by simp [List.all_eq_true] at habs ⊢; exact habs.2)

theorem any_of_absent {db : List ImageRow} {T : List Nat}
    (habs : db.all (fun r => !decide (r.symbol = T)) = true) :
    db.any (fun r => decide (r.symbol = T)) = false := by
  simp only [List.all_eq_true, Bool.not_eq_true', decide_eq_false_iff_not] at habs
  simp only [List.any_eq_false, decide_eq_true_eq]
  exact habs

theorem filter_storeImage_of_ne (db : List ImageRow) (σ k d fn : List Nat) (t : ℚ)
    (hk : k ≠ σ) :
    (db.map (fun r => if r.symbol = σ then
        { r with image_data := d, filename := fn, updatedAt := t } else r)).filter
        (fun r => decide (r.symbol = k)) =
      db.filter (fun r => decide (r.symbol = k)) := by
  induction db with
  | nil => rfl
  | cons r rs ih =>
      rw [List.map_cons, List.filter_cons, List.filter_cons]
      by_cases hr : r.symbol = σ
      · have hne : r.symbol ≠ k := by
          rw [hr]
          exact fun hc => hk hc.symm
        rw [if_pos hr, if_neg (by simp [hne]), if_neg (by simp [hne])]
        exact ih
      · rw [if_neg hr]
        by_cases hrk : r.symbol = k
        · rw [if_pos (by simp [hrk]), if_pos (by simp [hrk]), ih]
        · rw [if_neg (by simp [hrk]), if_neg (by simp [hrk])]
          exact ih

/-! Claim theorems. -/

/-- Claim C4: for every valid Ticker T, deriveKey T is the string T with the
literal _chart.png tail appended, keyToTicker recovers exactly T from that
key, and keyToTicker rejects every key that does not match the chart-key
pattern, making StorageKey to Ticker a total lossless inverse on valid
tickers. -/
theorem claim_c4_roundtrip (t : List Nat) (h : isValidTicker t = true) :
    keyToTicker (deriveKey t) = some t ∧
    (∀ k : List Nat, matchChartKey k = false → keyToTicker k = none) := by
  have hne : t ≠ [] := by
    simp only [isValidTicker, Bool.and_eq_true, Bool.not_eq_true',
      List.isEmpty_eq_false] at h
    exact h.1.1
  have hup : t.all isUpperAlnum = true := by
    simp only [isValidTicker, Bool.and_eq_true] at h
    exact h.2
  have hci : t.all isAlnumCI = true := by
    simp only [List.all_eq_true] at hup ⊢
    exact fun c hc => alnumCI_of_upper (hup c hc)
  constructor
  · unfold keyToTicker deriveKey
    rw [if_pos (matchChartKey_derive hne hci), splitHead_derive hup, jsToUpper_fixed hup]
  · intro k hk
    unfold keyToTicker
    rw [if_neg (by simp [hk])]

/-- Witness for C4 at the ticker AAPL and the non-matching key notes.txt;
the uppercase-tail key is accepted, as the case-insensitive regex of the
program accepts it. -/
theorem claim_c4_roundtrip_witness :
    keyToTicker (deriveKey (str "AAPL")) = some (str "AAPL") ∧
    keyToTicker (str "notes.txt") = none ∧
    keyToTicker (str "AAPL_CHART.PNG") = some (str "AAPL") :=
  ⟨(claim_c4_roundtrip (str "AAPL") (by decide)).1,
   (claim_c4_roundtrip (str "AAPL") (by decide)).2 (str "notes.txt") (by decide),
   by decide⟩

/-- Claim C5: the freshness test of the code holds exactly when now minus the
modification time is strictly below the default TTL of 24 hours; an equal
timestamp is fresh, an age equal to or above the TTL is stale, and a missing
timestamp is never fresh. -/
theorem claim_c5_freshness :
    (∀ now m : ℚ, fileIsRecent now m = true ↔ now - m < ttl24ms) ∧
    (∀ now : ℚ, fileIsRecent now now = true) ∧
    (∀ now m : ℚ, ttl24ms ≤ now - m → fileIsRecent now m = false) ∧
    (∀ now : ℚ, freshFile none now = false) := by
  have key : ∀ now m : ℚ, fileIsRecent now m = true ↔ now - m < ttl24ms := by
    intro now m
    unfold fileIsRecent fileAgeHours ttl24ms
    rw [decide_eq_true_eq, div_div, div_div,
      div_lt_iff₀ (by norm_num : (0:ℚ) < 1000 * (60 * 60))]
    norm_num
  refine ⟨key, ?_, ?_, fun _ => rfl⟩
  · intro now
    rw [key]
    simp only [sub_self, ttl24ms]
    norm_num
  · intro now m h
    exact Bool.eq_false_iff.mpr (fun htrue => absurd ((key now m).mp htrue) (not_lt.mpr h))

/-- Witness for C5: an equal timestamp is fresh, ages of exactly 24 hours and
of 25 hours are stale, a missing timestamp is stale. -/
theorem claim_c5_freshness_witness :
    fileIsRecent 0 0 = true ∧ fileIsRecent 86400000 0 = false ∧
    fileIsRecent 90000000 0 = false ∧ freshFile none 0 = false :=
  ⟨claim_c5_freshness.2.1 0,
   claim_c5_freshness.2.2.1 86400000 0 (by norm_num [ttl24ms]),
   claim_c5_freshness.2.2.1 90000000 0 (by norm_num [ttl24ms]),
   claim_c5_freshness.2.2.2 0⟩

/-- Claim C6: storeImage has upsert semantics: on a table with no row for
the symbol the first put inserts and reports inserted; the second put for
the same symbol overwrites the bytes and the filename, refreshes updatedAt
while keeping createdAt, and reports updated; afterwards the GET lookup
returns the second bytes and exactly one row exists for the symbol. -/
theorem claim_c6_upsert (db : List ImageRow) (T a b f1 f2 : List Nat) (t1 t2 : ℚ)
    (hT : jsToUpper T = T)
    (habs : db.all (fun r => !decide (r.symbol = T)) = true) :
    (storeImage db t1 T a f1).2 = .inserted ∧
    (storeImage (storeImage db t1 T a f1).1 t2 T b f2).2 = .updated ∧
    getChart (storeImage (storeImage db t1 T a f1).1 t2 T b f2).1 T =
      some ⟨T, b, f2, t1, t2⟩ ∧
    ((storeImage (storeImage db t1 T a f1).1 t2 T b f2).1.filter
        (fun r => decide (r.symbol = T))).length = 1 := by
  have hany := any_of_absent habs
  have h1 : storeImage db t1 T a f1 = (db ++ [⟨T, a, f1, t1, t1⟩], .inserted) := by
    unfold storeImage
    rw [if_neg (by simp [hany])]
  have hany2 : (db ++ [(⟨T, a, f1, t1, t1⟩ : ImageRow)]).any
      (fun r => decide (r.symbol = T)) = true := by
    simp [List.any_append]
  have h2 : storeImage (db ++ [⟨T, a, f1, t1, t1⟩]) t2 T b f2 =
      (db ++ [⟨T, b, f2, t1, t2⟩], .updated) := by
    unfold storeImage
    rw [if_pos hany2, List.map_append, map_update_of_absent habs]
    simp
  have e1 : (storeImage db t1 T a f1).2 = PutResult.inserted := by rw [h1]
  have e2 : (storeImage db t1 T a f1).1 = db ++ [⟨T, a, f1, t1, t1⟩] := by rw [h1]
  have e3 : storeImage (storeImage db t1 T a f1).1 t2 T b f2 =
      (db ++ [⟨T, b, f2, t1, t2⟩], .updated) := by rw [e2, h2]
  have e4 : (storeImage (storeImage db t1 T a f1).1 t2 T b f2).1 =
      db ++ [⟨T, b, f2, t1, t2⟩] := by rw [e3]
  refine ⟨e1, by rw [e3], ?_, ?_⟩
  · rw [e4]
    unfold getChart
    rw [hT, List.filter_append, filter_of_absent habs]
    simp
  · rw [e4, List.filter_append, filter_of_absent habs]
    simp

/-- Witness for C6 at the ticker AAPL on an empty table. -/
theorem claim_c6_upsert_witness :
    (storeImage [] 0 (str "AAPL") [1] (str "a.png")).2 = .inserted ∧
    (storeImage (storeImage [] 0 (str "AAPL") [1] (str "a.png")).1 5 (str "AAPL") [2]
      (str "b.png")).2 = .updated ∧
    getChart (storeImage (storeImage [] 0 (str "AAPL") [1] (str "a.png")).1 5 (str "AAPL")
      [2] (str "b.png")).1 (str "AAPL") = some ⟨str "AAPL", [2], str "b.png", 0, 5⟩ ∧
    ((storeImage (storeImage [] 0 (str "AAPL") [1] (str "a.png")).1 5 (str "AAPL") [2]
      (str "b.png")).1.filter (fun r => decide (r.symbol = str "AAPL"))).length = 1 :=
  claim_c6_upsert [] (str "AAPL") [1] [2] (str "a.png") (str "b.png") 0 5
    (by decide) (by decide)

/-- Claim C10: the GET chart lookup queries with the uppercased argument, so
it is insensitive to the case of its input; storeImage stores the symbol
exactly as supplied; hence a row committed under a non-uppercase symbol
string never affects any GET lookup: the lookup result after such a put is
the same as before it, for every input. -/
theorem claim_c10_case (db : List ImageRow) (s σ d f : List Nat) (t : ℚ)
    (hσ : jsToUpper σ ≠ σ) :
    getChart db s = getChart db (jsToUpper s) ∧
    ((storeImage [] t σ d f).1.map (fun r => r.symbol) = [σ]) ∧
    getChart (storeImage db t σ d f).1 s = getChart db s := by
  have hkey : jsToUpper s ≠ σ := by
    intro hc
    apply hσ
    rw [← hc, jsToUpper_idem, hc]
  refine ⟨?_, ?_, ?_⟩
  · unfold getChart
    rw [jsToUpper_idem]
  · simp [storeImage]
  · unfold storeImage
    by_cases hany : db.any (fun r => decide (r.symbol = σ)) = true
    · rw [if_pos hany]
      unfold getChart
      rw [filter_storeImage_of_ne db σ (jsToUpper s) d f t hkey]
    · rw [if_neg hany]
      unfold getChart
      rw [List.filter_append]
      have hone : ([(⟨σ, d, f, t, t⟩ : ImageRow)].filter
          (fun r => decide (r.symbol = jsToUpper s))) = [] := by
        simp [Ne.symm hkey]
      rw [hone, List.append_nil]

/-- Witness for C10: a row committed under the lowercase symbol msft is
invisible to the lookup for msft itself. -/
theorem claim_c10_case_witness :
    getChart [] (str "msft") = getChart [] (jsToUpper (str "msft")) ∧
    ((storeImage [] 0 (str "msft") [1] (str "m.png")).1.map (fun r => r.symbol) =
      [str "msft"]) ∧
    getChart (storeImage [] 0 (str "msft") [1] (str "m.png")).1 (str "msft") =
      getChart [] (str "msft") :=
  claim_c10_case [] (str "msft") (str "msft") [1] (str "m.png") 0 (by decide)

/-- Claim C1: the cache orchestrator of the static charts route consults the
store and the freshness policy first: a present fresh artifact means zero
fetches, zero commits and unchanged state; an absent artifact triggers
exactly one fetch; from an empty store one call performs exactly one fetch
and one commit leaving the fetched bytes cached under the derived key, and
an immediately following call for the same ticker within the TTL performs
zero fetches and leaves the store unchanged whatever the upstream would
answer. -/
theorem claim_c1_getOrFetch :
    (∀ (store : FileStore) (temp : Temp) (now : ℚ) (sym : List Nat) (fi : FileRec)
        (out : FetchOutcome),
        lookupA store (deriveKey (jsToUpper sym)) = some fi →
        fileIsRecent now fi.mtime = true →
        staticCharts store temp now sym out =
          ⟨store, temp, 0, 0, .urlText (deriveKey (jsToUpper sym))⟩) ∧
    (∀ (store : FileStore) (temp : Temp) (now : ℚ) (sym : List Nat) (out : FetchOutcome),
        lookupA store (deriveKey (jsToUpper sym)) = none →
        (staticCharts store temp now sym out).fetches = 1) ∧
    (∀ (temp : Temp) (t0 t1 : ℚ) (sym b : List Nat) (out2 : FetchOutcome),
        fileIsRecent t1 t0 = true →
        (staticCharts [] temp t0 sym (.fetchOk b)).fetches = 1 ∧
        (staticCharts [] temp t0 sym (.fetchOk b)).commits = 1 ∧
        lookupA (staticCharts [] temp t0 sym (.fetchOk b)).store
          (deriveKey (jsToUpper sym)) = some ⟨b, t0⟩ ∧
        (staticCharts (staticCharts [] temp t0 sym (.fetchOk b)).store
          (staticCharts [] temp t0 sym (.fetchOk b)).temp t1 sym out2).fetches = 0 ∧
        (staticCharts (staticCharts [] temp t0 sym (.fetchOk b)).store
          (staticCharts [] temp t0 sym (.fetchOk b)).temp t1 sym out2).store =
          (staticCharts [] temp t0 sym (.fetchOk b)).store) := by
  have h1 : ∀ (store : FileStore) (temp : Temp) (now : ℚ) (sym : List Nat) (fi : FileRec)
      (out : FetchOutcome),
      lookupA store (deriveKey (jsToUpper sym)) = some fi →
      fileIsRecent now fi.mtime = true →
      staticCharts store temp now sym out =
        ⟨store, temp, 0, 0, .urlText (deriveKey (jsToUpper sym))⟩ := by
    intro store temp now sym fi out hlook hfresh
    simp [staticCharts, hlook, hfresh]
  have hr1 : ∀ (temp : Temp) (t0 : ℚ) (sym b : List Nat),
      staticCharts [] temp t0 sym (.fetchOk b) =
        ⟨[(deriveKey (jsToUpper sym), ⟨b, t0⟩)],
         eraseA (putA temp (deriveKey (jsToUpper sym)) b) (deriveKey (jsToUpper sym)),
         1, 1, .urlText (deriveKey (jsToUpper sym))⟩ := by
    intro temp t0 sym b
    have hbytes : (lookupA (putA temp (deriveKey (jsToUpper sym)) b)
        (deriveKey (jsToUpper sym))).getD [] = b := by
      rw [lookupA_putA_self]
      rfl
    simp only [staticCharts, downloadFinvizChart, lookupA_nil, hbytes]
    simp [putA]
  refine ⟨h1, ?_, ?_⟩
  · intro store temp now sym out hlook
    cases out <;> simp [staticCharts, downloadFinvizChart, hlook]
  · intro temp t0 t1 sym b out2 hfresh
    have e1 := hr1 temp t0 sym b
    have hlook1 : lookupA (staticCharts [] temp t0 sym (.fetchOk b)).store
        (deriveKey (jsToUpper sym)) = some ⟨b, t0⟩ := by
      rw [e1]
      simp [lookupA]
    have e2 := h1 (staticCharts [] temp t0 sym (.fetchOk b)).store
      (staticCharts [] temp t0 sym (.fetchOk b)).temp t1 sym ⟨b, t0⟩ out2 hlook1 hfresh
    exact ⟨by rw [e1], by rw [e1], hlook1, by rw [e2], by rw [e2]⟩

/-- Witness for C1: fetching MSFT into an empty store performs one fetch and
one commit, and an immediate second request performs zero fetches even when
the upstream would now fail. -/
theorem claim_c1_getOrFetch_witness :
    (staticCharts [] [] 0 (str "MSFT") (.fetchOk [3])).fetches = 1 ∧
    (staticCharts [] [] 0 (str "MSFT") (.fetchOk [3])).commits = 1 ∧
    (staticCharts (staticCharts [] [] 0 (str "MSFT") (.fetchOk [3])).store
      (staticCharts [] [] 0 (str "MSFT") (.fetchOk [3])).temp 1000 (str "MSFT")
      .fetchFailNet).fetches = 0 := by
  have hfresh : fileIsRecent 1000 0 = true := by
    unfold fileIsRecent fileAgeHours
    rw [decide_eq_true_eq]
    norm_num
  have h := claim_c1_getOrFetch.2.2 [] 0 1000 (str "MSFT") [3] .fetchFailNet hfresh
  exact ⟨h.1, h.2.1, h.2.2.2.1⟩

/-- Claim C2 counterexample: the raw input with a dollar sign contains a
character outside the allowed class, yet the POST charts handler does not
fail with any format error: it attempts the fetch (one download) and commits
the downloaded bytes under the raw symbol. -/
theorem claim_c2_counterexample :
    (postCharts [] true [] 0 (some (str "BAD$")) (.fetchOk [1])).fetches = 1 ∧
    (postCharts [] true [] 0 (some (str "BAD$")) (.fetchOk [1])).response =
      .processed .inserted ∧
    (postCharts [] true [] 0 (some (str "BAD$")) (.fetchOk [1])).db.map
      (fun r => r.symbol) = [str "BAD$"] := by
  refine ⟨by decide, by decide, by decide⟩

/-- Claim C2 amended: only a missing or empty raw symbol is rejected before
any fetch or storage operation (the required-symbol rejection); inputs
violating the character-class or the length bound are not rejected: any
non-empty symbol proceeds to exactly one fetch attempt once the table is
initialized. -/
theorem claim_c2_amended (db : List ImageRow) (temp : Temp) (now : ℚ)
    (s : List Nat) (out : FetchOutcome) :
    (∀ dbi : Bool,
      postCharts db dbi temp now none out = ⟨db, temp, 0, .symbolRequired⟩) ∧
    (∀ dbi : Bool,
      postCharts db dbi temp now (some []) out = ⟨db, temp, 0, .symbolRequired⟩) ∧
    (s ≠ [] → (postCharts db true temp now (some s) out).fetches = 1) := by
  refine ⟨fun dbi => rfl, fun dbi => rfl, fun hs => ?_⟩
  have hse : s.isEmpty = false := by simp [hs]
  cases out <;> simp [postCharts, hse, downloadFinvizChart]

/-- Witness for C2 amended: a 16-character symbol with a dollar sign is not
rejected and reaches the fetch. -/
theorem claim_c2_amended_witness :
    (postCharts [] true [] 0 (some (str "WAYTOOLONG$YMBOL")) (.fetchOk [1])).fetches = 1 :=
  (claim_c2_amended [] [] 0 (str "WAYTOOLONG$YMBOL") (.fetchOk [1])).2.2 (by decide)

/-- Claim C3 counterexample: with the middle ticker failing, the response
arrays of the batch route hold the two successes and then the failure; no
single returned sequence lists one outcome per input ticker in input order,
since successes and failures are segregated into two arrays. -/
theorem claim_c3_counterexample :
    (let r := batchCharts
        (fun s => if s = str "BAD$" then FetchOutcome.fetchFailNet else .fetchOk [7]) 0
        [str "AAPL", str "BAD$", str "MSFT"] [] []
     r.results.map (fun e => e.symbol) ++ r.errors.map (fun e => e.symbol) =
        [str "AAPL", str "MSFT", str "BAD$"] ∧
     r.results.map (fun e => e.symbol) ++ r.errors.map (fun e => e.symbol) ≠
        [str "AAPL", str "BAD$", str "MSFT"] ∧
     r.errors.map (fun e => e.symbol) ++ r.results.map (fun e => e.symbol) ≠
        [str "AAPL", str "BAD$", str "MSFT"]) := by
  refine ⟨by decide, by decide, by decide⟩

/-- Claim C3 amended: the batch loop returns a successes array and an errors
array rather than one interleaved sequence: every input ticker yields
exactly one outcome in exactly one of the two arrays, each array preserves
input order, a failing item never aborts the remaining ones, and the loop
always completes with one outcome per input. -/
theorem claim_c3_amended (oracle : List Nat → FetchOutcome) (now : ℚ)
    (symbols : List (List Nat)) (db : List ImageRow) (temp : Temp) :
    (batchCharts oracle now symbols db temp).results.map (fun e => e.symbol) =
      symbols.filter (fun s => fetchSucceeds (oracle s)) ∧
    (batchCharts oracle now symbols db temp).errors.map (fun e => e.symbol) =
      symbols.filter (fun s => !fetchSucceeds (oracle s)) ∧
    (batchCharts oracle now symbols db temp).results.length +
      (batchCharts oracle now symbols db temp).errors.length = symbols.length := by
  have main : ∀ (syms : List (List Nat)) (db : List ImageRow) (temp : Temp),
      (batchCharts oracle now syms db temp).results.map (fun e => e.symbol) =
        syms.filter (fun s => fetchSucceeds (oracle s)) ∧
      (batchCharts oracle now syms db temp).errors.map (fun e => e.symbol) =
        syms.filter (fun s => !fetchSucceeds (oracle s)) := by
    intro syms
    induction syms with
    | nil => intro db temp; exact ⟨rfl, rfl⟩
    | cons s rest ih =>
        intro db temp
        have i1 := fun db temp => (ih db temp).1
        have i2 := fun db temp => (ih db temp).2
        cases ho : oracle s with
        | fetchOk b =>
            simp [batchCharts, downloadFinvizChart, ho, fetchSucceeds,
              List.filter_cons, i1, i2]
        | fetchFailWrite w =>
            simp [batchCharts, downloadFinvizChart, ho, fetchSucceeds,
              List.filter_cons, i1, i2]
        | fetchFailNet =>
            simp [batchCharts, downloadFinvizChart, ho, fetchSucceeds,
              List.filter_cons, i1, i2]
  obtain ⟨m1, m2⟩ := main symbols db temp
  refine ⟨m1, m2, ?_⟩
  have l1 : (batchCharts oracle now symbols db temp).results.length =
      (symbols.filter (fun s => fetchSucceeds (oracle s))).length := by
    rw [← m1, List.length_map]
  have l2 : (batchCharts oracle now symbols db temp).errors.length =
      (symbols.filter (fun s => !fetchSucceeds (oracle s))).length := by
    rw [← m2, List.length_map]
  rw [l1, l2, ← List.length_eq_length_filter_add]

/-- Claim C7 counterexample: a download dying mid-stream leaves the
partially written staging file behind in the temp directory: the staging
artifact is not deleted on failure. -/
theorem claim_c7_counterexample :
    (downloadFinvizChart [] (str "MSFT") (.fetchFailWrite [9])).2 = none ∧
    lookupA (downloadFinvizChart [] (str "MSFT") (.fetchFailWrite [9])).1
      (deriveKey (str "MSFT")) = some [9] := by
  refine ⟨by decide, by decide⟩

/-- Claim C7 amended: a failed fetch commits nothing - the table is
unchanged and the request answers the download error - but a partially
written staging artifact is not deleted: it stays in the temp directory
under the derived key; a failure before any write leaves the temp directory
unchanged. -/
theorem claim_c7_amended (db : List ImageRow) (temp : Temp) (now : ℚ)
    (s w : List Nat) (hs : s ≠ []) :
    (postCharts db true temp now (some s) (.fetchFailWrite w)).db = db ∧
    (postCharts db true temp now (some s) (.fetchFailWrite w)).response =
      .downloadError ∧
    lookupA (postCharts db true temp now (some s) (.fetchFailWrite w)).temp
      (deriveKey (jsToUpper s)) = some w ∧
    (postCharts db true temp now (some s) .fetchFailNet).db = db ∧
    (postCharts db true temp now (some s) .fetchFailNet).temp = temp := by
  have hse : s.isEmpty = false := by simp [hs]
  have hw : postCharts db true temp now (some s) (.fetchFailWrite w) =
      ⟨db, putA temp (deriveKey (jsToUpper s)) w, 1, .downloadError⟩ := by
    simp [postCharts, hse, downloadFinvizChart]
  have hn : postCharts db true temp now (some s) .fetchFailNet =
      ⟨db, temp, 1, .downloadError⟩ := by
    simp [postCharts, hse, downloadFinvizChart]
  refine ⟨by rw [hw], by rw [hw], ?_, by rw [hn], by rw [hn]⟩
  rw [hw]
  exact lookupA_putA_self temp _ w

/-- Witness for C7 amended at the ticker MSFT with two staged bytes. -/
theorem claim_c7_amended_witness :
    (postCharts [] true [] 0 (some (str "MSFT")) (.fetchFailWrite [9, 9])).db = [] ∧
    lookupA (postCharts [] true [] 0 (some (str "MSFT")) (.fetchFailWrite [9, 9])).temp
      (deriveKey (jsToUpper (str "MSFT"))) = some [9, 9] := by
  have h := claim_c7_amended [] [] 0 (str "MSFT") [9, 9] (by decide)
  exact ⟨h.1, h.2.2.1⟩

/-- Claim C8: the upload path fails with a validation failure whenever the
mime type is not PNG (rejected by the file filter before anything is
staged, store unchanged) or the filename does not match the chart-key
pattern (the staged file is unlinked, so no file remains under that name);
on success the bytes are committed under the uploaded filename and the
ticker that keyToTicker recovers from that filename is returned. -/
theorem claim_c8_upload (store : FileStore) (now : ℚ) (filename mime bytes : List Nat) :
    (mime ≠ pngMime →
      acceptUpload store now filename mime bytes = (store, .validationFailure)) ∧
    (mime = pngMime → matchChartKey filename = false →
      (acceptUpload store now filename mime bytes).2 = .validationFailure ∧
      lookupA (acceptUpload store now filename mime bytes).1 filename = none) ∧
    (mime = pngMime → matchChartKey filename = true →
      (acceptUpload store now filename mime bytes).2 =
        .accepted (jsToUpper (splitHeadUnderscore filename)) ∧
      keyToTicker filename = some (jsToUpper (splitHeadUnderscore filename)) ∧
      lookupA (acceptUpload store now filename mime bytes).1 filename =
        some ⟨bytes, now⟩) := by
  refine ⟨fun hm => ?_, fun hm hf => ?_, fun hm hf => ?_⟩
  · unfold acceptUpload
    rw [if_neg hm]
  · have hrej : acceptUpload store now filename mime bytes =
        (eraseA (putA store filename ⟨bytes, now⟩) filename, .validationFailure) := by
      unfold acceptUpload
      rw [if_pos hm, if_neg (by simp [hf])]
    rw [hrej]
    exact ⟨rfl, lookupA_eraseA_self _ _⟩
  · have hacc : acceptUpload store now filename mime bytes =
        (putA store filename ⟨bytes, now⟩,
         .accepted (jsToUpper (splitHeadUnderscore filename))) := by
      unfold acceptUpload
      rw [if_pos hm, if_pos hf]
    rw [hacc]
    refine ⟨rfl, ?_, lookupA_putA_self _ _ _⟩
    unfold keyToTicker
    rw [if_pos hf]

/-- Witness for C8: a plain-text upload named notes.txt fails leaving the
store unchanged; a PNG named AAPL_chart.png is committed under that
filename and returns the ticker AAPL; a PNG with the mixed-case name
TSLA_Chart.PNG is likewise accepted and committed, matching the
case-insensitive regex of the program. -/
theorem claim_c8_upload_witness :
    acceptUpload [] 0 (str "notes.txt") (str "text/plain") [5] =
      ([], .validationFailure) ∧
    (acceptUpload [] 0 (str "AAPL_chart.png") (str "image/png") [5]).2 =
      .accepted (str "AAPL") ∧
    lookupA (acceptUpload [] 0 (str "AAPL_chart.png") (str "image/png") [5]).1
      (str "AAPL_chart.png") = some ⟨[5], 0⟩ ∧
    (acceptUpload [] 0 (str "TSLA_Chart.PNG") (str "image/png") [7]).2 =
      .accepted (str "TSLA") ∧
    lookupA (acceptUpload [] 0 (str "TSLA_Chart.PNG") (str "image/png") [7]).1
      (str "TSLA_Chart.PNG") = some ⟨[7], 0⟩ := by
  have h1 := (claim_c8_upload [] 0 (str "notes.txt") (str "text/plain") [5]).1 (by decide)
  have h3 := (claim_c8_upload [] 0 (str "AAPL_chart.png") (str "image/png") [5]).2.2
    (by decide) (by decide)
  have h4 := (claim_c8_upload [] 0 (str "TSLA_Chart.PNG") (str "image/png") [7]).2.2
    (by decide) (by decide)
  have hup : jsToUpper (splitHeadUnderscore (str "AAPL_chart.png")) = str "AAPL" := by
    decide
  have hup2 : jsToUpper (splitHeadUnderscore (str "TSLA_Chart.PNG")) = str "TSLA" := by
    decide
  refine ⟨h1, ?_, h3.2.2, ?_, h4.2.2⟩
  · rw [← hup]
    exact h3.1
  · rw [← hup2]
    exact h4.1

/-- Claim C9: with no relational pool, every relational-only route is
registered as the 503 placeholder reporting that database functionality is
unavailable rather than crashing the process, while the upload and the two
static-serving routes keep their file-backed handlers. -/
theorem claim_c9_degraded :
    (∀ e : Endpoint, relationalOnly e = true →
      registeredBehavior false e = .unavailable503) ∧
    registeredBehavior false .uploadEp = .fileBacked ∧
    registeredBehavior false .uploadBatchEp = .fileBacked ∧
    registeredBehavior false .staticFilenameEp = .fileBacked ∧
    registeredBehavior false .staticChartsEp = .fileBacked := by
  refine ⟨?_, rfl, rfl, rfl, rfl⟩
  intro e he
  cases e <;> first
    | rfl
    | exact absurd he (by decide)

/-- Witness for C9: the POST charts route degrades to the 503 placeholder
while the upload route stays file backed. -/
theorem claim_c9_degraded_witness :
    registeredBehavior false .postChartsEp = .unavailable503 ∧
    registeredBehavior false .uploadEp = .fileBacked :=
  ⟨claim_c9_degraded.1 .postChartsEp (by decide), claim_c9_degraded.2.1⟩

end ImageHost
